import Mathlib

/-!
Verification of the batch-processing and external-task core of the
`api-halakha` service against its natural-language specification.

The definitions below are a shallow embedding of the Python source:

* `app/services/processing_service.py` — the batch orchestrator
  (`process_halakhot_from_json`), the retrying item processor
  (`_process_single_halakha_with_retry`) and the single-item JSON entry
  point (`process_halakha_from_json`).
* `app/services/openai_service.py` — the external-task runner
  (`_wait_on_run`, `_submit_tool_outputs_if_required`,
  `_get_assistant_response`, `_query_assistant`).

External effects (the OpenAI client, Notion, Supabase, the clock, and
`asyncio.sleep`) are modelled by explicit environment records supplying
the responses the source code would receive, plus an action trace
recording the side-effecting requests the code issues.  Python `dict`
results are modelled as structures whose fields carry `Option` when the
corresponding key is present only on some of the dictionaries built by
the source.  Reporting-only fields that no claim mentions
(`success_rate`, `retry_statistics`, `word_count`) are omitted.
-/

/-! ## Retrying item processor

Embedding of `ProcessingService._process_single_halakha_with_retry`
(processing_service.py, lines 308-383).  One call to
`process_halakha_complete` inside an attempt either returns a Notion URL
or raises; the environment `env : Nat → AttemptResult` gives the result
of the call made at each attempt number. -/

/-- Result of one invocation of `process_halakha_complete` inside a retry
attempt: either the Notion URL, or a raised exception with its
`str(e)` message and `type(e).__name__`. -/
inductive AttemptResult where
  | ok (notionUrl : String)
  | err (msg : String) (excType : String)
deriving Repr, DecidableEq

/-- `true` exactly when the attempt raised. -/
def AttemptResult.isErr : AttemptResult → Bool
  | .ok _ => false
  | .err _ _ => true

/-- One element of the JSON halakhot list as produced by
`load_all_halakhot`: the `index` and `halakha` keys are always present,
`character_count` is read with `.get` defaults in the source. -/
structure HalakhaData where
  index : Nat
  halakha : String
  character_count : Option Nat := none
deriving Repr, DecidableEq

/-- One entry of the `retry_details` list: attempt number (1-based),
`str(e)` and `type(e).__name__`. -/
structure RetryDetail where
  attempt : Nat
  error : String
  exception_type : String
deriving Repr, DecidableEq

/-- The per-item result dictionary built by
`_process_single_halakha_with_retry` (and, for skipped items, by
`_add_skipped_halakhot_to_results`).  Keys present only on some of the
dictionaries are `Option` fields defaulting to `none`; `retries_exhausted`
is read by the orchestrator with `.get("retries_exhausted", False)`, hence
a plain `Bool` defaulting to `false`. -/
structure ProcessingResult where
  status : String
  index : Nat
  notion_url : Option String := none
  error : Option String := none
  exception_type : Option String := none
  scheduled_days : Nat := 0
  content_length : Option Nat := none
  attempts_made : Option Nat := none
  retry_details : List RetryDetail := []
  retries_exhausted : Bool := false
  reason : Option String := none
deriving Repr, DecidableEq

/-- Python `not s.strip()`: the string is empty once surrounding
whitespace is stripped, i.e. every character is whitespace. -/
def pyStripIsEmpty (s : String) : Bool :=
  s.data.all Char.isWhitespace

/-- The body of one `for attempt in range(max_retries + 1)` iteration up
to the point where it either succeeds or raises: the empty-content
validation (`if not halakha_content.strip(): raise ValueError(...)`)
runs first; otherwise the attempt performs `process_halakha_complete`,
whose outcome the environment supplies. -/
def attemptHalakha (env : Nat → AttemptResult) (content : String) (index attempt : Nat) :
    AttemptResult :=
  if pyStripIsEmpty content then
    .err ("Contenu vide pour la halakha #" ++ toString index) "ValueError"
  else env attempt

/-- The retry loop of `_process_single_halakha_with_retry`.  `fuel` is the
number of attempts still allowed (initially `max_retries + 1`), `attempt`
the current 0-based attempt number, `details` the accumulated
`retry_details`, `lastExc` the `last_exception` variable as
`(str(e), type(e).__name__)`.  Running out of fuel is the `break` after
`attempt >= max_retries` followed by the failure dictionary. -/
def retryLoop (env : Nat → AttemptResult) (content : String)
    (index schedule_days max_retries contentLength : Nat) :
    Nat → Nat → List RetryDetail → Option (String × String) → ProcessingResult
  | 0, _, details, lastExc =>
      { status := "failed", index := index,
        error := some ("Échec après " ++ toString (max_retries + 1) ++ " tentatives: " ++
          ((lastExc.map Prod.fst).getD "None")),
        exception_type := some ((lastExc.map Prod.snd).getD "Unknown"),
        scheduled_days := schedule_days,
        attempts_made := some (max_retries + 1),
        retry_details := details,
        retries_exhausted := true }
  | fuel + 1, attempt, details, _ =>
      match attemptHalakha env content index attempt with
      | .ok url =>
          { status := "success", index := index, notion_url := some url,
            scheduled_days := schedule_days,
            content_length := some contentLength,
            attempts_made := some (attempt + 1),
            retry_details := details }
      | .err m t =>
          retryLoop env content index schedule_days max_retries contentLength
            fuel (attempt + 1) (details ++ [⟨attempt + 1, m, t⟩]) (some (m, t))

/-- `_process_single_halakha_with_retry`: the content is
`halakha_data["halakha"]`, the success `content_length` is
`halakha_data.get("character_count", len(halakha_content))`. -/
def processWithRetry (env : Nat → AttemptResult) (halakha_data : HalakhaData)
    (index schedule_days max_retries : Nat) : ProcessingResult :=
  retryLoop env halakha_data.halakha index schedule_days max_retries
    (halakha_data.character_count.getD halakha_data.halakha.length)
    (max_retries + 1) 0 [] none

/-! ## Batch orchestrator

Embedding of `ProcessingService.process_halakhot_from_json` and its
helpers `_init_batch_results`, `_update_batch_results`,
`_add_skipped_halakhot_to_results`, `_finalize_batch_results`
(processing_service.py, lines 116-480).  The list of items is the value
returned by `get_halakhot_range` (file loading is outside the embedding);
the per-item, per-attempt outcomes of `process_halakha_complete` are
supplied by `env : Nat → Nat → AttemptResult` (loop position, attempt).
A fail-fast abort raises `RuntimeError`; the embedding surfaces it as the
`.error` branch carrying the message together with the local `results`
state at the moment of the raise, so that the report invariants can be
stated. -/

/-- One entry of the `notion_urls` list. -/
structure NotionUrlEntry where
  index : Nat
  url : String
  scheduled_days : Nat
deriving Repr, DecidableEq

/-- One entry of the `errors` list. -/
structure ErrorEntry where
  index : Nat
  error : String
  exception_type : String
deriving Repr, DecidableEq

/-- One entry of the `skipped_items` list. -/
structure SkippedItem where
  index : Nat
  reason : String
  content_length : Nat
deriving Repr, DecidableEq

/-- The batch `results` dictionary.  The reporting-only fields
`success_rate` and `retry_statistics` computed by
`_finalize_batch_results` are omitted (no claim mentions them);
`end_index` is `Int` because `start_index + actual_count - 1` can be
negative in Python when `actual_count = 0`. -/
structure BatchResults where
  processed_count : Nat
  success_count : Nat
  failed_count : Nat
  skipped_count : Nat
  notion_urls : List NotionUrlEntry
  errors : List ErrorEntry
  skipped_items : List SkippedItem
  processing_details : List ProcessingResult
  start_index : Nat
  requested_limit : Nat
  actual_count : Nat
  schedule_days_start : Nat
  max_retries : Nat
  status : String
  fail_fast_triggered_at_index : Option Nat := none
  end_index : Option Int := none
deriving Repr, DecidableEq

/-- `_init_batch_results`. -/
def initBatchResults (start_index requested_limit actual_count schedule_days max_retries : Nat) :
    BatchResults :=
  { processed_count := 0, success_count := 0, failed_count := 0, skipped_count := 0,
    notion_urls := [], errors := [], skipped_items := [], processing_details := [],
    start_index := start_index, requested_limit := requested_limit,
    actual_count := actual_count, schedule_days_start := schedule_days,
    max_retries := max_retries, status := "in_progress" }

/-- `_update_batch_results`.  The `error` key is read by plain indexing in
the source; it is present on every `failed` result, the `getD ""` only
totalises the lookup. -/
def updateBatchResults (results : BatchResults) (pr : ProcessingResult) : BatchResults :=
  let r := { results with processed_count := results.processed_count + 1 }
  if pr.status = "success" then
    { r with success_count := r.success_count + 1,
             notion_urls := r.notion_urls ++
               [⟨pr.index, pr.notion_url.getD "", pr.scheduled_days⟩],
             processing_details := r.processing_details ++ [pr] }
  else
    { r with failed_count := r.failed_count + 1,
             errors := r.errors ++
               [⟨pr.index, pr.error.getD "", pr.exception_type.getD "Unknown"⟩],
             processing_details := r.processing_details ++ [pr] }

/-- The `{"status": "skipped", ...}` dictionary appended to
`processing_details` for each skipped halakha. -/
def mkSkippedDetail (h : HalakhaData) (reason : String) : ProcessingResult :=
  { status := "skipped", index := h.index, reason := some reason }

/-- `_add_skipped_halakhot_to_results`: the skipped-item entry reads
`halakha_data.get("character_count", 0)`. -/
def addSkippedHalakhotToResults (results : BatchResults) (skipped : List HalakhaData)
    (reason : String) : BatchResults :=
  match skipped with
  | [] => results
  | h :: rest =>
      addSkippedHalakhotToResults
        { results with
            skipped_items := results.skipped_items ++
              [⟨h.index, reason, h.character_count.getD 0⟩],
            skipped_count := results.skipped_count + 1,
            processing_details := results.processing_details ++ [mkSkippedDetail h reason] }
        rest reason

/-- `_finalize_batch_results` (without the omitted `success_rate` /
`retry_statistics` computations). -/
def finalizeBatchResults (results : BatchResults) : BatchResults :=
  { results with
      end_index := some ((results.start_index : Int) + (results.actual_count : Int) - 1),
      status := if results.status ≠ "failed_fast" then "completed" else results.status }

/-- The `for i, halakha_data in enumerate(halakhot_to_process)` loop of
`process_halakhot_from_json`.  `i` is the enumeration position; the
fail-fast branch builds the skipped entries from
`halakhot_to_process[i+1:]` (the unconsumed tail), marks the report
`failed_fast`, records the triggering JSON index and raises. -/
def processBatchLoop (env : Nat → Nat → AttemptResult) (schedule_days max_retries : Nat)
    (fail_fast : Bool) :
    List HalakhaData → Nat → BatchResults → Except (String × BatchResults) BatchResults
  | [], _, results => .ok (finalizeBatchResults results)
  | h :: rest, i, results =>
      let pr := processWithRetry (env i) h h.index (schedule_days + i) max_retries
      let results1 := updateBatchResults results pr
      if pr.status = "failed" ∧ pr.retries_exhausted ∧ fail_fast then
        let results2 := addSkippedHalakhotToResults results1 rest "skipped_due_to_fail_fast"
        let results3 := { results2 with status := "failed_fast",
                                        fail_fast_triggered_at_index := some h.index }
        .error ("Batch arrêté en fail-fast à la halakha #" ++ toString h.index, results3)
      else
        processBatchLoop env schedule_days max_retries fail_fast rest (i + 1) results1

/-- `process_halakhot_from_json` from the point where
`halakhot_to_process` has been loaded: initialise the report, run the
loop.  The `.error` branch is the `RuntimeError` raised on fail-fast
(re-raised unwrapped by the surrounding handler); `.ok` is the finalised
report returned to the caller. -/
def processHalakhotFromJson (env : Nat → Nat → AttemptResult)
    (halakhot_to_process : List HalakhaData)
    (start_index schedule_days limit_halakhot max_retries : Nat) (fail_fast : Bool) :
    Except (String × BatchResults) BatchResults :=
  let results := initBatchResults start_index limit_halakhot
    halakhot_to_process.length schedule_days max_retries
  processBatchLoop env schedule_days max_retries fail_fast halakhot_to_process 0 results

/-! ## External-task runner

Embedding of `OpenAIService._wait_on_run`,
`_submit_tool_outputs_if_required`, `_submit_tool_outputs`,
`_get_assistant_response` and `_query_assistant`
(openai_service.py, lines 68-197).  The OpenAI client is modelled by an
environment giving the response to each `runs.retrieve` call, each
`runs.submit_tool_outputs` call, and each evaluation of the elapsed-time
comparison `time.time() - start > timeout`; the requests the service
issues (`runs.cancel`, `threads.delete`, `submit_tool_outputs`) are
recorded in an action trace.  The `while True` polling loop is given
fuel; running out of fuel models a still-polling (non-terminated)
invocation and settles nothing. -/

/-- One entry of `run.required_action.submit_tool_outputs.tool_calls`
(`tool_call.id`, `tool_call.function.name`,
`tool_call.function.arguments`). -/
structure ToolCall where
  id : String
  function_name : String
  arguments : String
deriving Repr, DecidableEq

/-- The run object returned by the client.  `required_action` is
`some calls` exactly when `run.required_action` is present with type
`"submit_tool_outputs"` and carries `calls`; `last_error` is the
diagnostic interpolated into the failure message. -/
structure RunState where
  id : String
  thread_id : String
  status : String
  required_action : Option (List ToolCall) := none
  last_error : String := ""
deriving Repr, DecidableEq

/-- One element of `messages.data`: the list of `content[k].text.value`
strings of that message. -/
structure ThreadMessage where
  content : List String
deriving Repr, DecidableEq

/-- A side-effecting request issued to the external system. -/
inductive ExtAction where
  | cancelRun (thread_id run_id : String)
  | deleteThread (thread_id : String)
  | submitToolOutputs (thread_id run_id : String) (outputs : List (String × String))
deriving Repr, DecidableEq

/-- Counters of calls made so far plus the list of side-effecting
requests issued, in order. -/
structure ExtTrace where
  retrieves : Nat := 0
  checks : Nat := 0
  submits : Nat := 0
  actions : List ExtAction := []
deriving Repr, DecidableEq

/-- Responses of the external system: `runs n` answers the `n`-th
`runs.retrieve` call, `submitRun n` the `n`-th `submit_tool_outputs`
call, `timedOut n` the `n`-th evaluation of
`time.time() - start > timeout`, and `messages` is `messages.data` as
listed after the run finished. -/
structure ExtEnv where
  runs : Nat → RunState
  submitRun : Nat → RunState
  timedOut : Nat → Bool
  messages : List ThreadMessage

/-- The local callback-handler registry `self.tool_functions` looked up
by function name.  A handler receives the raw `arguments` string;
`.error e` models a raised exception with `str(e) = e` (a failing
`json.loads(tool_call.function.arguments)` is folded into the same
case, as it is caught by the same `except`). -/
def HandlerRegistry : Type := String → Option (String → Except String String)

/-- `json.dumps` applied to the output string by `_submit_tool_outputs`. -/
def jsonDumps (s : String) : String :=
  "\"" ++ s.foldl (fun acc c =>
    acc ++ if c = '\\' then "\\\\" else if c = '"' then "\\\"" else String.singleton c) "" ++ "\""

/-- The per-tool-call body of `_submit_tool_outputs_if_required`: look
the handler up by `function_name` and run it; any exception `e` (missing
registry key included — its `str` is the quoted key) becomes the output
string `"[Erreur: " ++ str(e) ++ "]"` instead of propagating. -/
def dispatchToolCall (handlers : HandlerRegistry) (c : ToolCall) : String :=
  match handlers c.function_name with
  | none => "[Erreur: " ++ "\x27" ++ c.function_name ++ "\x27" ++ "]"
  | some f =>
      match f c.arguments with
      | .ok r => r
      | .error e => "[Erreur: " ++ e ++ "]"

/-- `run.status in ["completed", "failed", "cancelled", "expired"]`. -/
def isTerminalStatus (s : String) : Bool :=
  s == "completed" || s == "failed" || s == "cancelled" || s == "expired"

/-- `_wait_on_run` together with the mutually recursive
`_submit_tool_outputs_if_required` / `_submit_tool_outputs`.  Each loop
iteration: retrieve the run; return it if terminal; on
`requires_action` build one output per pending tool call (handler
exceptions encoded by `dispatchToolCall`), submit them in a single
`submit_tool_outputs` request, poll the submitted run to a terminal
state (the nested `_wait_on_run` called by `_submit_tool_outputs`), then
`continue` the outer loop (whose next iteration retrieves again);
otherwise check the timeout — if exceeded, issue a cancel request,
re-retrieve the final status and return it — else sleep and loop. -/
def waitOnRun (env : ExtEnv) (handlers : HandlerRegistry) :
    Nat → RunState → ExtTrace → Option RunState × ExtTrace
  | 0, _, t => (none, t)
  | fuel + 1, runIn, t =>
      let run := env.runs t.retrieves
      let t1 := { t with retrieves := t.retrieves + 1 }
      if isTerminalStatus run.status then
        (some run, t1)
      else if run.status = "requires_action" then
        match run.required_action with
        | some calls =>
            let outputs := calls.map fun c => (c.id, jsonDumps (dispatchToolCall handlers c))
            let t2 := { t1 with submits := t1.submits + 1,
                                actions := t1.actions ++
                                  [ExtAction.submitToolOutputs run.thread_id run.id outputs] }
            let newRun := env.submitRun t1.submits
            match waitOnRun env handlers fuel newRun t2 with
            | (none, t3) => (none, t3)
            | (some _, t3) => waitOnRun env handlers fuel runIn t3
        | none => waitOnRun env handlers fuel runIn t1
      else
        let timed := env.timedOut t1.checks
        let t2 := { t1 with checks := t1.checks + 1 }
        if timed then
          let t3 := { t2 with actions := t2.actions ++ [ExtAction.cancelRun run.thread_id run.id] }
          let finalRun := env.runs t3.retrieves
          (some finalRun, { t3 with retrieves := t3.retrieves + 1 })
        else
          waitOnRun env handlers fuel run t2

/-- `messages.data[0].content[0].text.value` guarded the way
`_get_assistant_response` guards it (`not messages.data`,
`not messages.data[0].content`, then the value itself). -/
def firstTextValue : List ThreadMessage → Option String
  | [] => none
  | m :: _ => m.content.head?

/-- `_get_assistant_response`: return the first text value on
`completed` (empty or missing payload raises), raise a typed error on
every other status. -/
def getAssistantResponse (msgs : List ThreadMessage) (run : RunState) :
    Except String String :=
  if run.status = "completed" then
    match msgs with
    | [] => .error "Réponse vide de l\x27assistant."
    | m :: _ =>
        match m.content with
        | [] => .error "Réponse vide de l\x27assistant."
        | v :: _ =>
            if v = "" then .error "Réponse vide de l\x27assistant." else .ok v
  else if run.status = "failed" then
    .error ("Le Run a échoué : " ++ run.last_error)
  else if run.status = "cancelled" then
    .error "Le Run a été annulé (timeout ou annulation manuelle)."
  else if run.status = "expired" then
    .error "Le Run a expiré (OpenAI n\x27a pas répondu à temps)."
  else
    .error ("Le Run s\x27est terminé avec un statut inattendu : " ++ run.status)

/-- `_query_assistant`: create the thread and run (its successful result
is `initialRun`), poll it to a terminal state, extract the response,
and only then delete the thread; every exception raised on the way
(non-completed terminal status, empty response) propagates through the
bare `except ... raise` without reaching the deletion.  `none` models an
invocation whose polling loop has not terminated. -/
def queryAssistant (env : ExtEnv) (handlers : HandlerRegistry) (fuel : Nat)
    (initialRun : RunState) : Option (Except String String × ExtTrace) :=
  match waitOnRun env handlers fuel initialRun {} with
  | (none, _) => none
  | (some run, t) =>
      match getAssistantResponse env.messages run with
      | .error e => some (.error e, t)
      | .ok v => some (.ok v, { t with actions := t.actions ++ [ExtAction.deleteThread initialRun.thread_id] })

/-! ## Single-item JSON entry point

Embedding of `ProcessingService.process_halakha_from_json`
(processing_service.py, lines 76-114) and the Python keyword-argument
binding of its call to `process_halakha_complete` (lines 31-37).  The
loader result (`load_halakha_by_index`) and the body of
`process_halakha_complete` are abstract inputs; what is embedded is the
call site with its literal keyword names and CPython binding, which
raises `TypeError` when a keyword is not among the callee parameters. -/

/-- The parameters of `process_halakha_complete` (`self` excluded):
`halakha_content`, `add_day_for_notion`, `last_image`. -/
def processHalakhaCompleteParams : List String :=
  ["halakha_content", "add_day_for_notion", "last_image"]

/-- The keyword arguments `process_halakha_from_json` passes to
`process_halakha_complete`. -/
def processHalakhaFromJsonKwargs : List String :=
  ["halakha_content", "add_day_for_notion", "save_to_supabase"]

/-- CPython keyword binding: the first keyword not among the callee
parameters aborts the call with
`TypeError: ...() got an unexpected keyword argument '<kw>'`; only when
every keyword binds does the body (`impl`) run. -/
def callWithKwargs (funcName : String) (params kwargs : List String)
    (impl : Except String String) : Except String String :=
  match kwargs.find? (fun k => !params.contains k) with
  | some k => .error (funcName ++ "() got an unexpected keyword argument " ++
      "\x27" ++ k ++ "\x27")
  | none => impl

/-- The success dictionary of `process_halakha_from_json`. -/
structure SingleItemResult where
  index : Nat
  notion_page_url : String
  scheduled_days : Nat
  status : String
  content_length : Nat
deriving Repr, DecidableEq

/-- `process_halakha_from_json`: load the halakha, call
`process_halakha_complete` with the literal keywords of the source call
site, build the success dictionary; any exception `e` is wrapped into
`RuntimeError(f"Échec du traitement de la halakha #{json_index}: " + str(e))`. -/
def processHalakhaFromJsonSingle (loadResult : Except String String)
    (impl : Except String String) (json_index schedule_days : Nat) :
    Except String SingleItemResult :=
  let wrap : String → String := fun e =>
    "Échec du traitement de la halakha #" ++ toString json_index ++ ": " ++ e
  match loadResult with
  | .error e => .error (wrap e)
  | .ok halakha_content =>
      match callWithKwargs "process_halakha_complete" processHalakhaCompleteParams
          processHalakhaFromJsonKwargs impl with
      | .error e => .error (wrap e)
      | .ok notion_url =>
          .ok { index := json_index, notion_page_url := notion_url,
                scheduled_days := schedule_days, status := "completed",
                content_length := halakha_content.length }

/-! ## Lemmas about the retry loop -/

/-- A `failed` result of the retry loop always carries
`attempts_made = max_retries + 1` and `retries_exhausted = true`:
the only `failed` dictionary the source builds is the one after the
loop, which hard-codes both fields. -/
theorem retryLoop_failed_fields (env : Nat → AttemptResult) (c : String)
    (i sd mr cl : Nat) :
    ∀ fuel attempt details lastExc,
      (retryLoop env c i sd mr cl fuel attempt details lastExc).status = "failed" →
      (retryLoop env c i sd mr cl fuel attempt details lastExc).attempts_made = some (mr + 1) ∧
      (retryLoop env c i sd mr cl fuel attempt details lastExc).retries_exhausted = true := by
  intro fuel
  induction fuel with
  | zero => intro attempt details lastExc _; exact ⟨rfl, rfl⟩
  | succ n ih =>
      intro attempt details lastExc h
      rw [retryLoop] at h ⊢
      cases hA : attemptHalakha env c i attempt with
      | ok url => rw [hA] at h; simp at h
      | err m t => rw [hA] at h; exact ih _ _ _ h

/-- If every attempt the loop still has fuel for raises, the loop ends in
the `failed` dictionary, having appended one retry-trace entry per
attempt. -/
theorem retryLoop_all_err (env : Nat → AttemptResult) (c : String)
    (i sd mr cl : Nat) :
    ∀ fuel attempt details lastExc,
      (∀ b, b < fuel → (attemptHalakha env c i (attempt + b)).isErr = true) →
      (retryLoop env c i sd mr cl fuel attempt details lastExc).status = "failed" ∧
      (retryLoop env c i sd mr cl fuel attempt details lastExc).retry_details.length =
        details.length + fuel := by
  intro fuel
  induction fuel with
  | zero => intro attempt details lastExc _; exact ⟨rfl, by simp [retryLoop]⟩
  | succ n ih =>
      intro attempt details lastExc hall
      rw [retryLoop]
      cases hA : attemptHalakha env c i attempt with
      | ok url =>
          have h0 : (attemptHalakha env c i (attempt + 0)).isErr = true :=
            hall 0 (Nat.succ_pos n)
          rw [Nat.add_zero, hA] at h0
          simp [AttemptResult.isErr] at h0
      | err m t =>
          have := ih (attempt + 1) (details ++ [⟨attempt + 1, m, t⟩]) (some (m, t))
            (by
              intro b hb
              have : attempt + 1 + b = attempt + (b + 1) := by omega
              rw [this]
              exact hall (b + 1) (by omega))
          refine ⟨this.1, ?_⟩
          rw [this.2]
          simp
          omega

/-- If the first `a` attempts raise and attempt `a` (still within the
fuel) succeeds, the loop returns the success dictionary of attempt `a`,
with `attempts_made = a + 1`. -/
theorem retryLoop_first_ok (env : Nat → AttemptResult) (c : String)
    (i sd mr cl : Nat) :
    ∀ a fuel attempt details lastExc url,
      a < fuel →
      (∀ b, b < a → (attemptHalakha env c i (attempt + b)).isErr = true) →
      attemptHalakha env c i (attempt + a) = .ok url →
      (retryLoop env c i sd mr cl fuel attempt details lastExc).status = "success" ∧
      (retryLoop env c i sd mr cl fuel attempt details lastExc).attempts_made =
        some (attempt + a + 1) ∧
      (retryLoop env c i sd mr cl fuel attempt details lastExc).notion_url = some url ∧
      (retryLoop env c i sd mr cl fuel attempt details lastExc).retry_details.length =
        details.length + a := by
  intro a
  induction a with
  | zero =>
      intro fuel attempt details lastExc url hfuel _ hok
      cases fuel with
      | zero => omega
      | succ n =>
          rw [Nat.add_zero] at hok
          rw [retryLoop, hok]
          exact ⟨rfl, rfl, rfl, by simp⟩
  | succ a ih =>
      intro fuel attempt details lastExc url hfuel hpre hok
      cases fuel with
      | zero => omega
      | succ n =>
          have h0 : (attemptHalakha env c i (attempt + 0)).isErr = true :=
            hpre 0 (Nat.succ_pos a)
          rw [Nat.add_zero] at h0
          cases hA : attemptHalakha env c i attempt with
          | ok u => rw [hA] at h0; simp [AttemptResult.isErr] at h0
          | err m t =>
              rw [retryLoop, hA]
              have e1 : attempt + 1 + a = attempt + (a + 1) := by omega
              have := ih n (attempt + 1) (details ++ [⟨attempt + 1, m, t⟩]) (some (m, t)) url
                (by omega)
                (by
                  intro b hb
                  have e2 : attempt + 1 + b = attempt + (b + 1) := by omega
                  rw [e2]
                  exact hpre (b + 1) (by omega))
                (by rw [e1]; exact hok)
              refine ⟨this.1, ?_, this.2.2.1, ?_⟩
              · rw [this.2.1, e1]
              · rw [this.2.2.2]; simp; omega

/-- Peeling `List.range` from the front under a `map`. -/
theorem map_range_shift {α : Type} (g : Nat → α) (n : Nat) :
    (List.range (n + 1)).map g = g 0 :: (List.range n).map (fun b => g (b + 1)) := by
  rw [List.range_succ_eq_map, List.map_cons, List.map_map]
  rfl

/-- With blank content every attempt raises the same `ValueError`
before `process_halakha_complete` is ever reached, so the loop result is
fully determined (for any environment): one retry-trace entry per
attempt, ending in the `failed` dictionary. -/
theorem retryLoop_empty_content (env : Nat → AttemptResult) (c : String)
    (i sd mr cl : Nat) (hc : pyStripIsEmpty c = true) :
    ∀ fuel attempt details lastExc,
      retryLoop env c i sd mr cl (fuel + 1) attempt details lastExc =
        { status := "failed", index := i,
          error := some ("Échec après " ++ toString (mr + 1) ++ " tentatives: " ++
            ("Contenu vide pour la halakha #" ++ toString i)),
          exception_type := some "ValueError",
          scheduled_days := sd,
          attempts_made := some (mr + 1),
          retry_details := details ++ (List.range (fuel + 1)).map
            (fun b => ⟨attempt + b + 1, "Contenu vide pour la halakha #" ++ toString i,
              "ValueError"⟩),
          retries_exhausted := true } := by
  have hA : ∀ attempt, attemptHalakha env c i attempt =
      .err ("Contenu vide pour la halakha #" ++ toString i) "ValueError" := by
    intro a; simp [attemptHalakha, hc]
  intro fuel
  induction fuel with
  | zero =>
      intro attempt details lastExc
      rw [retryLoop, hA]
      simp [retryLoop, List.range_succ]
  | succ n ih =>
      intro attempt details lastExc
      have step : retryLoop env c i sd mr cl (n + 1 + 1) attempt details lastExc =
          retryLoop env c i sd mr cl (n + 1) (attempt + 1)
            (details ++ [⟨attempt + 1, "Contenu vide pour la halakha #" ++ toString i,
              "ValueError"⟩])
            (some ("Contenu vide pour la halakha #" ++ toString i, "ValueError")) := by
        rw [retryLoop, hA]
      rw [step, ih]
      have lists : (details ++ [(⟨attempt + 1,
            "Contenu vide pour la halakha #" ++ toString i, "ValueError"⟩ : RetryDetail)]) ++
            (List.range (n + 1)).map (fun b => (⟨attempt + 1 + b + 1,
              "Contenu vide pour la halakha #" ++ toString i, "ValueError"⟩ : RetryDetail)) =
          details ++ (List.range (n + 1 + 1)).map (fun b => (⟨attempt + b + 1,
              "Contenu vide pour la halakha #" ++ toString i, "ValueError"⟩ : RetryDetail)) := by
        rw [List.append_assoc]
        congr 1
        conv_rhs => rw [map_range_shift]
        simp only [List.singleton_append]
        congr 1
        apply List.map_congr_left
        intro b _
        dsimp only
        have e : attempt + 1 + b + 1 = attempt + (b + 1) + 1 := by omega
        rw [e]
      rw [lists]

/-! ## Claims C4 and C9 -/

/-- **C4.** For every item and every `max_retries ≥ 0`, the retrying
processor returns a `failed` outcome with `retries_exhausted = true` only
after exactly `max_retries + 1` attempts (one retry-trace entry per
attempt), its `attempts_made` then equals `max_retries + 1` exactly, and
on a success at attempt `a` its `attempts_made` equals `a + 1`. -/
theorem claim_C4_retry_attempt_accounting (env : Nat → AttemptResult) (h : HalakhaData)
    (i sd mr : Nat) :
    ((∀ a, a ≤ mr → (attemptHalakha env h.halakha i a).isErr = true) →
      (processWithRetry env h i sd mr).status = "failed" ∧
      (processWithRetry env h i sd mr).retries_exhausted = true ∧
      (processWithRetry env h i sd mr).attempts_made = some (mr + 1) ∧
      (processWithRetry env h i sd mr).retry_details.length = mr + 1) ∧
    ((processWithRetry env h i sd mr).status = "failed" →
      (processWithRetry env h i sd mr).retries_exhausted = true ∧
      (processWithRetry env h i sd mr).attempts_made = some (mr + 1)) ∧
    (∀ a url, a ≤ mr →
      (∀ b, b < a → (attemptHalakha env h.halakha i b).isErr = true) →
      attemptHalakha env h.halakha i a = .ok url →
      (processWithRetry env h i sd mr).status = "success" ∧
      (processWithRetry env h i sd mr).attempts_made = some (a + 1)) := by
  refine ⟨?_, ?_, ?_⟩
  · intro hall
    have := retryLoop_all_err env h.halakha i sd mr
      (h.character_count.getD h.halakha.length) (mr + 1) 0 [] none
      (by intro b hb; simpa using hall b (by omega))
    have hf := retryLoop_failed_fields env h.halakha i sd mr
      (h.character_count.getD h.halakha.length) (mr + 1) 0 [] none this.1
    rw [processWithRetry]
    refine ⟨this.1, hf.2, hf.1, ?_⟩
    rw [this.2]; simp
  · intro hfail
    rw [processWithRetry] at hfail ⊢
    have := retryLoop_failed_fields env h.halakha i sd mr
      (h.character_count.getD h.halakha.length) (mr + 1) 0 [] none hfail
    exact ⟨this.2, this.1⟩
  · intro a url ha hpre hok
    have := retryLoop_first_ok env h.halakha i sd mr
      (h.character_count.getD h.halakha.length) a (mr + 1) 0 [] none url (by omega)
      (by intro b hb; simpa using hpre b hb) (by simpa using hok)
    rw [processWithRetry]
    refine ⟨this.1, ?_⟩
    rw [this.2.1]; simp

/-- **C4 witness.** Concrete instances: three always-failing attempts
with `max_retries = 2` give `attempts_made = 3`; a first success at
attempt `1` gives `attempts_made = 2`. -/
theorem claim_C4_retry_attempt_accounting_witness :
    (processWithRetry (fun _ => .err "boom" "E") ⟨5, "abc", none⟩ 5 0 2).attempts_made =
      some 3 ∧
    (processWithRetry (fun a => if a = 1 then .ok "u" else .err "x" "E")
      ⟨5, "abc", none⟩ 5 0 2).attempts_made = some 2 := by
  constructor
  · exact ((claim_C4_retry_attempt_accounting (fun _ => .err "boom" "E")
      ⟨5, "abc", none⟩ 5 0 2).1 (by decide)).2.2.1
  · exact ((claim_C4_retry_attempt_accounting (fun a => if a = 1 then .ok "u" else .err "x" "E")
      ⟨5, "abc", none⟩ 5 0 2).2.2 1 "u" (by decide) (by decide) (by decide)).2

/-- **C9.** For every item whose content is blank after stripping, the
retrying processor behaves exactly as for any other failure: each
validation short-circuit counts as one attempt (one `ValueError`
retry-trace entry per attempt), and the `failed` outcome — fully
determined, independently of the environment — is produced only after
the full `max_retries + 1` attempts; empty input is not special-cased
as non-retryable. -/
theorem claim_C9_empty_content_consumes_budget (env : Nat → AttemptResult)
    (h : HalakhaData) (i sd mr : Nat) (hc : pyStripIsEmpty h.halakha = true) :
    processWithRetry env h i sd mr =
      { status := "failed", index := i,
        error := some ("Échec après " ++ toString (mr + 1) ++ " tentatives: " ++
          ("Contenu vide pour la halakha #" ++ toString i)),
        exception_type := some "ValueError",
        scheduled_days := sd,
        attempts_made := some (mr + 1),
        retry_details := (List.range (mr + 1)).map
          (fun b => ⟨b + 1, "Contenu vide pour la halakha #" ++ toString i, "ValueError"⟩),
        retries_exhausted := true } := by
  rw [processWithRetry,
    retryLoop_empty_content env h.halakha i sd mr
      (h.character_count.getD h.halakha.length) hc mr 0 [] none]
  simp

/-- **C9 witness.** A whitespace-only item with `max_retries = 1` spends
both attempts on the validation error. -/
theorem claim_C9_empty_content_consumes_budget_witness :
    (pyStripIsEmpty "  " = true) ∧
    processWithRetry (fun _ => .ok "u") ⟨3, "  ", none⟩ 3 0 1 =
      { status := "failed", index := 3,
        error := some "Échec après 2 tentatives: Contenu vide pour la halakha #3",
        exception_type := some "ValueError",
        scheduled_days := 0,
        attempts_made := some 2,
        retry_details := [⟨1, "Contenu vide pour la halakha #3", "ValueError"⟩,
          ⟨2, "Contenu vide pour la halakha #3", "ValueError"⟩],
        retries_exhausted := true } := by
  refine ⟨by decide, ?_⟩
  have := claim_C9_empty_content_consumes_budget (fun _ => .ok "u") ⟨3, "  ", none⟩ 3 0 1
    (by decide)
  rw [this]
  decide

/-! ## Lemmas about the batch loop -/

/-- `_update_batch_results` increments `processed_count` by one,
increments exactly one of `success_count` / `failed_count`, appends the
outcome to `processing_details`, and touches nothing else the
invariants mention. -/
theorem updateBatchResults_fields (r : BatchResults) (pr : ProcessingResult) :
    (updateBatchResults r pr).processed_count = r.processed_count + 1 ∧
    (updateBatchResults r pr).success_count + (updateBatchResults r pr).failed_count =
      r.success_count + r.failed_count + 1 ∧
    (updateBatchResults r pr).skipped_count = r.skipped_count ∧
    (updateBatchResults r pr).skipped_items = r.skipped_items ∧
    (updateBatchResults r pr).processing_details = r.processing_details ++ [pr] ∧
    (updateBatchResults r pr).status = r.status := by
  by_cases h : pr.status = "success" <;> simp [updateBatchResults, h] <;> omega

/-- `_add_skipped_halakhot_to_results` appends one `skipped_items` entry
and one `skipped` processing detail per remaining halakha and adds their
number to `skipped_count`. -/
theorem addSkipped_spec (reason : String) :
    ∀ (l : List HalakhaData) (r : BatchResults),
      addSkippedHalakhotToResults r l reason =
        { r with
            skipped_items := r.skipped_items ++ l.map
              (fun h => ⟨h.index, reason, h.character_count.getD 0⟩),
            skipped_count := r.skipped_count + l.length,
            processing_details := r.processing_details ++
              l.map (fun h => mkSkippedDetail h reason) } := by
  intro l
  induction l with
  | nil => intro r; simp [addSkippedHalakhotToResults]
  | cons h tl ih =>
      intro r
      rw [addSkippedHalakhotToResults, ih]
      cases r
      simp [List.append_assoc]
      omega

/-- `_finalize_batch_results` only rewrites `status` (to `completed`
unless it already is `failed_fast`) and fills `end_index`. -/
theorem finalizeBatchResults_fields (r : BatchResults) :
    (finalizeBatchResults r).processed_count = r.processed_count ∧
    (finalizeBatchResults r).success_count = r.success_count ∧
    (finalizeBatchResults r).failed_count = r.failed_count ∧
    (finalizeBatchResults r).skipped_count = r.skipped_count ∧
    (finalizeBatchResults r).skipped_items = r.skipped_items ∧
    (finalizeBatchResults r).processing_details = r.processing_details ∧
    (finalizeBatchResults r).status =
      (if r.status ≠ "failed_fast" then "completed" else r.status) := by
  simp [finalizeBatchResults]

/-- Invariants carried through the batch loop: counts tie out, nothing
is skipped before a fail-fast abort, the `.error` branch is reachable
only with `fail_fast` enabled and yields a `failed_fast` report whose
processed and skipped counts partition the items. -/
theorem processBatchLoop_invariants (env : Nat → Nat → AttemptResult)
    (sd mr : Nat) (ff : Bool) :
    ∀ (items : List HalakhaData) (i : Nat) (results : BatchResults),
      results.processed_count = results.success_count + results.failed_count →
      results.skipped_count = 0 →
      results.skipped_items = [] →
      results.status = "in_progress" →
      (match processBatchLoop env sd mr ff items i results with
       | .ok r =>
           r.status = "completed" ∧
           r.processed_count = r.success_count + r.failed_count ∧
           r.skipped_count = 0 ∧ r.skipped_items = [] ∧
           r.processed_count = results.processed_count + items.length ∧
           r.processing_details.length = results.processing_details.length + items.length
       | .error (_, r) =>
           ff = true ∧ r.status = "failed_fast" ∧
           r.processed_count = r.success_count + r.failed_count ∧
           r.processed_count + r.skipped_count = results.processed_count + items.length ∧
           r.skipped_items.length = r.skipped_count ∧
           r.processing_details.length = results.processing_details.length + items.length) := by
  intro items
  induction items with
  | nil =>
      intro i results hsum hskip hskipitems hstatus
      have hf := finalizeBatchResults_fields results
      simp only [processBatchLoop]
      refine ⟨?_, ?_, ?_, ?_, ?_, ?_⟩
      · rw [hf.2.2.2.2.2.2, hstatus]; simp
      · rw [hf.1, hf.2.1, hf.2.2.1]; exact hsum
      · rw [hf.2.2.2.1]; exact hskip
      · rw [hf.2.2.2.2.1]; exact hskipitems
      · rw [hf.1]; simp
      · rw [hf.2.2.2.2.2.1]; simp
  | cons h tl ih =>
      intro i results hsum hskip hskipitems hstatus
      simp only [processBatchLoop]
      set pr := processWithRetry (env i) h h.index (sd + i) mr with hpr
      have hu := updateBatchResults_fields results pr
      by_cases hcond : pr.status = "failed" ∧ pr.retries_exhausted = true ∧ ff = true
      · rw [if_pos hcond]
        have hadd := addSkipped_spec "skipped_due_to_fail_fast" tl (updateBatchResults results pr)
        refine ⟨hcond.2.2, rfl, ?_, ?_, ?_, ?_⟩
        · simp [hadd, hu.1, hu.2.1, hu.2.2.1, hsum]
        · simp [hadd, hu.1, hu.2.2.1, hskip]
          omega
        · simp [hadd, hu.2.2.2.1, hskipitems, hu.2.2.1, hskip]
        · simp [hadd, hu.2.2.2.2.1]
      · rw [if_neg hcond]
        have := ih (i + 1) (updateBatchResults results pr)
          (by omega) (by rw [hu.2.2.1]; exact hskip)
          (by rw [hu.2.2.2.1]; exact hskipitems)
          (by rw [hu.2.2.2.2.2]; exact hstatus)
        cases hres : processBatchLoop env sd mr ff tl (i + 1) (updateBatchResults results pr) with
        | ok r =>
            rw [hres] at this
            refine ⟨this.1, this.2.1, this.2.2.1, this.2.2.2.1, ?_, ?_⟩
            · rw [this.2.2.2.2.1, hu.1]; simp; omega
            · rw [this.2.2.2.2.2, hu.2.2.2.2.1]; simp; omega
        | error e =>
            obtain ⟨m, r⟩ := e
            rw [hres] at this
            refine ⟨this.1, this.2.1, this.2.2.1, ?_, this.2.2.2.2.1, ?_⟩
            · rw [this.2.2.2.1, hu.1]; simp; omega
            · rw [this.2.2.2.2.2, hu.2.2.2.2.1]; simp; omega

/-! ## Claims C1 and C8 -/

/-- **C1.** For every batch run, once the report status is `completed`
(normal return) or `failed_fast` (fail-fast abort), the report satisfies
`processed_count = success_count + failed_count` and
`processed_count + skipped_count` equals the number of items loaded for
the batch; `skipped_count` is still zero whenever no fail-fast abort
occurred, and the skipped entries (one per `skipped_count`) are exactly
the unprocessed tail, so no item is counted both as processed and as
skipped. -/
theorem claim_C1_batch_report_accounting (env : Nat → Nat → AttemptResult)
    (items : List HalakhaData) (start sd lim mr : Nat) (ff : Bool) :
    match processHalakhotFromJson env items start sd lim mr ff with
    | .ok r =>
        r.status = "completed" ∧
        r.processed_count = r.success_count + r.failed_count ∧
        r.processed_count + r.skipped_count = items.length ∧
        r.skipped_count = 0 ∧ r.skipped_items = []
    | .error (_, r) =>
        r.status = "failed_fast" ∧
        r.processed_count = r.success_count + r.failed_count ∧
        r.processed_count + r.skipped_count = items.length ∧
        r.skipped_items.length = r.skipped_count := by
  have hinv := processBatchLoop_invariants env sd mr ff items 0
    (initBatchResults start lim items.length sd mr) rfl rfl rfl rfl
  simp only [processHalakhotFromJson]
  cases hres : processBatchLoop env sd mr ff items 0
      (initBatchResults start lim items.length sd mr) with
  | ok r =>
      rw [hres] at hinv
      refine ⟨hinv.1, hinv.2.1, ?_, hinv.2.2.1, hinv.2.2.2.1⟩
      rw [hinv.2.2.1, hinv.2.2.2.2.1]
      simp [initBatchResults]
  | error e =>
      obtain ⟨m, r⟩ := e
      rw [hres] at hinv
      refine ⟨hinv.2.1, hinv.2.2.1, ?_, hinv.2.2.2.2.1⟩
      rw [hinv.2.2.2.1]
      simp [initBatchResults]

/-- **C8.** With `fail_fast` disabled the batch entry point always
returns a structured report: every item is processed (one outcome per
item, none skipped) and the final status is `completed`, never
`failed_fast`, even when items fail; an exception escapes the loop only
on a fail-fast abort, i.e. only with `fail_fast` enabled, and then the
report status is `failed_fast`. -/
theorem claim_C8_partial_failure_returns_report (env : Nat → Nat → AttemptResult)
    (items : List HalakhaData) (start sd lim mr : Nat) :
    (match processHalakhotFromJson env items start sd lim mr false with
     | .ok r =>
         r.status = "completed" ∧ r.processed_count = items.length ∧
         r.skipped_count = 0 ∧ r.processing_details.length = items.length
     | .error _ => False) ∧
    (∀ (ff : Bool) (m : String) (r : BatchResults),
      processHalakhotFromJson env items start sd lim mr ff = .error (m, r) →
      ff = true ∧ r.status = "failed_fast") := by
  constructor
  · have hinv := processBatchLoop_invariants env sd mr false items 0
      (initBatchResults start lim items.length sd mr) rfl rfl rfl rfl
    simp only [processHalakhotFromJson]
    cases hres : processBatchLoop env sd mr false items 0
        (initBatchResults start lim items.length sd mr) with
    | ok r =>
        rw [hres] at hinv
        refine ⟨hinv.1, ?_, hinv.2.2.1, ?_⟩
        · rw [hinv.2.2.2.2.1]; simp [initBatchResults]
        · rw [hinv.2.2.2.2.2]; simp [initBatchResults]
    | error e =>
        obtain ⟨m, r⟩ := e
        rw [hres] at hinv
        exact absurd hinv.1 (by simp)
  · intro ff m r hres
    have hinv := processBatchLoop_invariants env sd mr ff items 0
      (initBatchResults start lim items.length sd mr) rfl rfl rfl rfl
    simp only [processHalakhotFromJson] at hres
    rw [hres] at hinv
    exact ⟨hinv.1, hinv.2.1⟩

/-- **C8 witness.** A one-item batch whose item exhausts its budget with
`fail_fast` enabled raises the fail-fast `RuntimeError`, and the report
at that point is `failed_fast`. -/
theorem claim_C8_partial_failure_returns_report_witness :
    (true = true) ∧
    ({ processed_count := 1, success_count := 0, failed_count := 1, skipped_count := 0,
       notion_urls := [], errors := [⟨0, "Échec après 1 tentatives: x", "E"⟩],
       skipped_items := [],
       processing_details := [{ status := "failed", index := 0,
                                error := some "Échec après 1 tentatives: x",
                                exception_type := some "E",
                                scheduled_days := 0, attempts_made := some 1,
                                retry_details := [⟨1, "x", "E"⟩],
                                retries_exhausted := true }],
       start_index := 0, requested_limit := 10, actual_count := 1,
       schedule_days_start := 0, max_retries := 0, status := "failed_fast",
       fail_fast_triggered_at_index := some 0 } : BatchResults).status = "failed_fast" :=
  (claim_C8_partial_failure_returns_report (fun _ _ => .err "x" "E")
    [⟨0, "a", none⟩] 0 0 10 0).2 true "Batch arrêté en fail-fast à la halakha #0" _ rfl

/-! ## Claim C2: fail-fast abort -/

/-- The outcome `_process_single_halakha_with_retry` produces for the
item at position `pos` of the remaining list `items` when the loop
entered that list at enumeration position `i` (so the item runs with
`env (i + pos)` and schedule offset `schedule_days + (i + pos)`). -/
def suffixOutcome (env : Nat → Nat → AttemptResult) (sd mr : Nat)
    (items : List HalakhaData) (i pos : Nat) : ProcessingResult :=
  processWithRetry (env (i + pos)) (items.getD pos ⟨0, "", none⟩)
    (items.getD pos ⟨0, "", none⟩).index (sd + (i + pos)) mr

/-- Shifting one item off the front of the remaining list. -/
theorem suffixOutcome_cons (env : Nat → Nat → AttemptResult) (sd mr : Nat)
    (h : HalakhaData) (tl : List HalakhaData) (i pos : Nat) :
    suffixOutcome env sd mr (h :: tl) i (pos + 1) = suffixOutcome env sd mr tl (i + 1) pos := by
  simp only [suffixOutcome, List.getD_cons_succ]
  have e : i + (pos + 1) = i + 1 + pos := by omega
  rw [e]

/-- If the items before position `k` succeed and the item at `k` fails
with its retries exhausted, the loop (with `fail_fast` enabled) aborts
at `k`: it raises, records the triggering index, reports `failed_fast`,
has processed exactly the first `k + 1` items (their outcomes, in
order, are the only non-skipped processing details), and every later
item appears only as a skipped entry. -/
theorem processBatchLoop_first_fail (env : Nat → Nat → AttemptResult) (sd mr : Nat) :
    ∀ (k : Nat) (items : List HalakhaData) (i : Nat) (results : BatchResults),
      k < items.length →
      (∀ j, j < k → (suffixOutcome env sd mr items i j).status = "success") →
      (suffixOutcome env sd mr items i k).status = "failed" →
      (suffixOutcome env sd mr items i k).retries_exhausted = true →
      (match processBatchLoop env sd mr true items i results with
       | .ok _ => False
       | .error (m, r) =>
           m = "Batch arrêté en fail-fast à la halakha #" ++
             toString (items.getD k ⟨0, "", none⟩).index ∧
           r.status = "failed_fast" ∧
           r.fail_fast_triggered_at_index = some (items.getD k ⟨0, "", none⟩).index ∧
           r.processed_count = results.processed_count + (k + 1) ∧
           r.skipped_count = results.skipped_count + (items.length - (k + 1)) ∧
           r.skipped_items = results.skipped_items ++ (items.drop (k + 1)).map
             (fun h => ⟨h.index, "skipped_due_to_fail_fast", h.character_count.getD 0⟩) ∧
           r.processing_details = results.processing_details ++
             (List.range (k + 1)).map (suffixOutcome env sd mr items i) ++
             (items.drop (k + 1)).map
               (fun h => mkSkippedDetail h "skipped_due_to_fail_fast")) := by
  intro k
  induction k with
  | zero =>
      intro items i results hk hpre hfail hexh
      cases items with
      | nil => simp at hk
      | cons h tl =>
          simp only [processBatchLoop]
          rw [if_pos ⟨hfail, hexh, trivial⟩]
          have hu := updateBatchResults_fields results
            (processWithRetry (env i) h h.index (sd + i) mr)
          rw [addSkipped_spec]
          refine ⟨rfl, rfl, rfl, ?_, ?_, ?_, ?_⟩
          · simp only []
            rw [hu.1]
          · simp only []
            rw [hu.2.2.1]
            simp
          · simp only []
            rw [hu.2.2.2.1]
            simp
          · simp only []
            rw [hu.2.2.2.2.1]
            simp [List.range_succ, List.append_assoc]
            rfl
  | succ k ihk =>
      intro items i results hk hpre hfail hexh
      cases items with
      | nil => simp at hk
      | cons h tl =>
          simp only [processBatchLoop]
          have hsucc0 : (processWithRetry (env i) h h.index (sd + i) mr).status = "success" :=
            hpre 0 (Nat.succ_pos k)
          rw [if_neg (by
            intro hc
            have h1 := hc.1
            rw [hsucc0] at h1
            simp at h1)]
          have hu := updateBatchResults_fields results
            (processWithRetry (env i) h h.index (sd + i) mr)
          have ihx := ihk tl (i + 1)
            (updateBatchResults results (processWithRetry (env i) h h.index (sd + i) mr))
            (by simpa using hk)
            (by
              intro j hj
              rw [← suffixOutcome_cons]
              exact hpre (j + 1) (by omega))
            (by rw [← suffixOutcome_cons]; exact hfail)
            (by rw [← suffixOutcome_cons]; exact hexh)
          cases hres : processBatchLoop env sd mr true tl (i + 1)
              (updateBatchResults results (processWithRetry (env i) h h.index (sd + i) mr)) with
          | ok r => rw [hres] at ihx; exact ihx
          | error e =>
              obtain ⟨m, r⟩ := e
              rw [hres] at ihx
              have hshift : (List.range (k + 1 + 1)).map (suffixOutcome env sd mr (h :: tl) i) =
                  suffixOutcome env sd mr (h :: tl) i 0 ::
                    (List.range (k + 1)).map (suffixOutcome env sd mr tl (i + 1)) := by
                rw [map_range_shift]
                congr 1
                apply List.map_congr_left
                intro b _
                exact suffixOutcome_cons env sd mr h tl i b
              refine ⟨?_, ihx.2.1, ?_, ?_, ?_, ?_, ?_⟩
              · rw [List.getD_cons_succ]; exact ihx.1
              · rw [List.getD_cons_succ]; exact ihx.2.2.1
              · rw [ihx.2.2.2.1, hu.1]; omega
              · rw [ihx.2.2.2.2.1, hu.2.2.1]
                simp only [List.length_cons]
                omega
              · rw [ihx.2.2.2.2.2.1, hu.2.2.2.1, List.drop_succ_cons]
              · rw [ihx.2.2.2.2.2.2, hu.2.2.2.2.1, List.drop_succ_cons, hshift]
                have h0 : suffixOutcome env sd mr (h :: tl) i 0 =
                    processWithRetry (env i) h h.index (sd + i) mr := rfl
                rw [h0]
                simp [List.append_assoc]

/-- **C2.** With `fail_fast` enabled, if the item at position `k` is the
first whose outcome is `failed` with `retries_exhausted`, the batch
aborts immediately at `k`: it raises the fail-fast error, the report
status is `failed_fast` with the triggering index recorded, exactly the
first `k + 1` items were processed (their outcomes are the only
success/failed entries in the processing details), and every item at a
position greater than `k` appears in `skipped_items` with reason
`"skipped_due_to_fail_fast"` and has no success/failed outcome. -/
theorem claim_C2_fail_fast_skips_remaining (env : Nat → Nat → AttemptResult)
    (items : List HalakhaData) (start sd lim mr k : Nat)
    (hk : k < items.length)
    (hpre : ∀ j, j < k → (suffixOutcome env sd mr items 0 j).status = "success")
    (hfail : (suffixOutcome env sd mr items 0 k).status = "failed")
    (hexh : (suffixOutcome env sd mr items 0 k).retries_exhausted = true) :
    match processHalakhotFromJson env items start sd lim mr true with
    | .ok _ => False
    | .error (m, r) =>
        m = "Batch arrêté en fail-fast à la halakha #" ++
          toString (items.getD k ⟨0, "", none⟩).index ∧
        r.status = "failed_fast" ∧
        r.fail_fast_triggered_at_index = some (items.getD k ⟨0, "", none⟩).index ∧
        r.processed_count = k + 1 ∧
        r.skipped_count = items.length - (k + 1) ∧
        r.skipped_items = (items.drop (k + 1)).map
          (fun h => ⟨h.index, "skipped_due_to_fail_fast", h.character_count.getD 0⟩) ∧
        r.processing_details = (List.range (k + 1)).map (suffixOutcome env sd mr items 0) ++
          (items.drop (k + 1)).map (fun h => mkSkippedDetail h "skipped_due_to_fail_fast") := by
  have hloop := processBatchLoop_first_fail env sd mr k items 0
    (initBatchResults start lim items.length sd mr) hk hpre hfail hexh
  simp only [processHalakhotFromJson]
  cases hres : processBatchLoop env sd mr true items 0
      (initBatchResults start lim items.length sd mr) with
  | ok r => rw [hres] at hloop; exact hloop
  | error e =>
      obtain ⟨m, r⟩ := e
      rw [hres] at hloop
      refine ⟨hloop.1, hloop.2.1, hloop.2.2.1, ?_, ?_, ?_, ?_⟩
      · rw [hloop.2.2.2.1]; simp [initBatchResults]
      · rw [hloop.2.2.2.2.1]; simp [initBatchResults]
      · rw [hloop.2.2.2.2.2.1]; simp [initBatchResults]
      · rw [hloop.2.2.2.2.2.2]; simp [initBatchResults]

/-- **C2 witness.** Three items, the second of which always fails with
`max_retries = 0` and `fail_fast` enabled: the run aborts at position 1,
item 2 is skipped with the fail-fast reason and has no outcome. -/
theorem claim_C2_fail_fast_skips_remaining_witness :
    match processHalakhotFromJson (fun i _ => if i = 1 then .err "x" "E" else .ok "u")
        [⟨0, "a", none⟩, ⟨1, "b", none⟩, ⟨2, "c", some 7⟩] 0 0 10 0 true with
    | .ok _ => False
    | .error (m, r) =>
        m = "Batch arrêté en fail-fast à la halakha #" ++
          toString (([⟨0, "a", none⟩, ⟨1, "b", none⟩, ⟨2, "c", some 7⟩] :
            List HalakhaData).getD 1 ⟨0, "", none⟩).index ∧
        r.status = "failed_fast" ∧
        r.fail_fast_triggered_at_index = some (([⟨0, "a", none⟩, ⟨1, "b", none⟩,
          ⟨2, "c", some 7⟩] : List HalakhaData).getD 1 ⟨0, "", none⟩).index ∧
        r.processed_count = 1 + 1 ∧
        r.skipped_count = ([⟨0, "a", none⟩, ⟨1, "b", none⟩, ⟨2, "c", some 7⟩] :
          List HalakhaData).length - (1 + 1) ∧
        r.skipped_items = (([⟨0, "a", none⟩, ⟨1, "b", none⟩, ⟨2, "c", some 7⟩] :
          List HalakhaData).drop (1 + 1)).map
          (fun h => ⟨h.index, "skipped_due_to_fail_fast", h.character_count.getD 0⟩) ∧
        r.processing_details = (List.range (1 + 1)).map
          (suffixOutcome (fun i _ => if i = 1 then .err "x" "E" else .ok "u") 0 0
            [⟨0, "a", none⟩, ⟨1, "b", none⟩, ⟨2, "c", some 7⟩] 0) ++
          (([⟨0, "a", none⟩, ⟨1, "b", none⟩, ⟨2, "c", some 7⟩] :
            List HalakhaData).drop (1 + 1)).map
            (fun h => mkSkippedDetail h "skipped_due_to_fail_fast") :=
  claim_C2_fail_fast_skips_remaining (fun i _ => if i = 1 then .err "x" "E" else .ok "u")
    [⟨0, "a", none⟩, ⟨1, "b", none⟩, ⟨2, "c", some 7⟩] 0 0 10 0 1
    (by decide) (by decide) (by decide) (by decide)

/-! ## Lemmas about the external-task runner -/

/-- `true` exactly for a `threads.delete` request. -/
def isDeleteThread : ExtAction → Bool
  | .deleteThread _ => true
  | _ => false

/-- Number of session-teardown (`threads.delete`) requests in a trace. -/
def countTeardowns (actions : List ExtAction) : Nat :=
  (actions.filter isDeleteThread).length

/-- A successful `_get_assistant_response` forces the run status to be
`completed` and the returned value to be the (non-empty) first text of
the first message. -/
theorem getAssistantResponse_ok_completed (msgs : List ThreadMessage) (run : RunState)
    (v : String) (hok : getAssistantResponse msgs run = .ok v) :
    run.status = "completed" ∧ firstTextValue msgs = some v ∧ v ≠ "" := by
  by_cases hc : run.status = "completed"
  · refine ⟨hc, ?_⟩
    rw [getAssistantResponse.eq_def, if_pos hc] at hok
    cases msgs with
    | nil => simp at hok
    | cons m rest =>
        dsimp only at hok
        cases hm : m.content with
        | nil => rw [hm] at hok; simp at hok
        | cons t ts =>
            rw [hm] at hok
            dsimp only at hok
            by_cases ht : t = ""
            · rw [if_pos ht] at hok; simp at hok
            · rw [if_neg ht] at hok
              simp only [Except.ok.injEq] at hok
              subst hok
              exact ⟨by simp [firstTextValue, hm], ht⟩
  · exfalso
    rw [getAssistantResponse.eq_def, if_neg hc] at hok
    by_cases h2 : run.status = "failed"
    · rw [if_pos h2] at hok; simp at hok
    · rw [if_neg h2] at hok
      by_cases h3 : run.status = "cancelled"
      · rw [if_pos h3] at hok; simp at hok
      · rw [if_neg h3] at hok
        by_cases h4 : run.status = "expired"
        · rw [if_pos h4] at hok; simp at hok
        · rw [if_neg h4] at hok; simp at hok

/-! ## Claim C5 -/

/-- **C5.** `_get_assistant_response` never returns a success when the
terminal status is anything other than `completed` (every such status
raises a typed error), and on `completed` with an empty or missing
payload it raises the empty-response error instead of returning a falsy
success. -/
theorem claim_C5_no_false_success (msgs : List ThreadMessage) (run : RunState) :
    (∀ v, getAssistantResponse msgs run = .ok v →
      run.status = "completed" ∧ firstTextValue msgs = some v ∧ v ≠ "") ∧
    (run.status ≠ "completed" → ∃ e, getAssistantResponse msgs run = .error e) ∧
    (run.status = "completed" →
      firstTextValue msgs = none ∨ firstTextValue msgs = some "" →
      getAssistantResponse msgs run = .error "Réponse vide de l\x27assistant.") := by
  refine ⟨fun v => getAssistantResponse_ok_completed msgs run v, ?_, ?_⟩
  · intro hne
    cases hg : getAssistantResponse msgs run with
    | error e => exact ⟨e, rfl⟩
    | ok v => exact absurd (getAssistantResponse_ok_completed msgs run v hg).1 hne
  · intro hc hempty
    rw [getAssistantResponse.eq_def, if_pos hc]
    cases msgs with
    | nil => rfl
    | cons m rest =>
        dsimp only
        cases hm : m.content with
        | nil => rfl
        | cons t ts =>
            have hft : firstTextValue (m :: rest) = some t := by
              simp [firstTextValue, hm]
            rcases hempty with he | he
            · rw [hft] at he; simp at he
            · rw [hft] at he
              simp only [Option.some.injEq] at he
              subst he
              rfl

/-- **C5 witness.** A `completed` run with text `"hi"` yields exactly
that success; a `completed` run with no messages yields the
empty-response error; a `failed` run yields an error. -/
theorem claim_C5_no_false_success_witness :
    ((⟨"r", "t", "completed", none, ""⟩ : RunState).status = "completed" ∧
      firstTextValue [⟨["hi"]⟩] = some "hi" ∧ "hi" ≠ "") ∧
    getAssistantResponse [] ⟨"r", "t", "completed", none, ""⟩ =
      .error "Réponse vide de l\x27assistant." ∧
    ∃ e, getAssistantResponse [⟨["hi"]⟩] ⟨"r", "t", "failed", none, "boom"⟩ = .error e :=
  ⟨(claim_C5_no_false_success [⟨["hi"]⟩] ⟨"r", "t", "completed", none, ""⟩).1 "hi" rfl,
   (claim_C5_no_false_success [] ⟨"r", "t", "completed", none, ""⟩).2.2 rfl (Or.inl rfl),
   (claim_C5_no_false_success [⟨["hi"]⟩] ⟨"r", "t", "failed", none, "boom"⟩).2.1 (by decide)⟩

/-! ## Claim C7: callback handling -/

/-- **C7.** When a poll observes `requires_action` with pending tool
calls, one output is produced per pending call by dispatching to the
registered handler looked up by `function_name` — a raising handler (or
a missing registration) has its exception caught and encoded as that
call's output string — all outputs are submitted keyed by `call_id` in a
single `submit_tool_outputs` request, and polling then continues: the
loop keeps retrieving (three retrieves in this run) and finishes on the
later terminal poll instead of failing because of the handler error. -/
theorem claim_C7_callback_errors_encoded (handlers : HandlerRegistry)
    (calls : List ToolCall) (rid tid rid2 tid2 le2 : String)
    (subState r0 : RunState) (msgs : List ThreadMessage) :
    (waitOnRun
        { runs := fun n => if n = 0
            then ⟨rid, tid, "requires_action", some calls, ""⟩
            else ⟨rid2, tid2, "completed", none, le2⟩,
          submitRun := fun _ => subState, timedOut := fun _ => false,
          messages := msgs }
        handlers 3 r0 {} =
      (some ⟨rid2, tid2, "completed", none, le2⟩,
        { retrieves := 3, checks := 0, submits := 1,
          actions := [ExtAction.submitToolOutputs tid rid
            (calls.map fun c => (c.id, jsonDumps (dispatchToolCall handlers c)))] })) ∧
    (∀ c ∈ calls, ∀ f e, handlers c.function_name = some f → f c.arguments = .error e →
      dispatchToolCall handlers c = "[Erreur: " ++ e ++ "]") ∧
    (∀ c ∈ calls, handlers c.function_name = none →
      dispatchToolCall handlers c =
        "[Erreur: " ++ "\x27" ++ c.function_name ++ "\x27" ++ "]") := by
  refine ⟨rfl, ?_, ?_⟩
  · intro c _ f e hf he
    rw [dispatchToolCall, hf]
    dsimp only
    rw [he]
  · intro c _ hf
    rw [dispatchToolCall, hf]

/-- **C7 witness.** One pending call `lookup` whose handler raises
`"boom"`: the single submission carries the encoded error for that
`call_id` and the run still finishes `completed`. -/
theorem claim_C7_callback_errors_encoded_witness :
    (waitOnRun
        { runs := fun n => if n = 0
            then ⟨"run1", "th1", "requires_action",
              some [⟨"call1", "lookup", "args"⟩], ""⟩
            else ⟨"run1", "th1", "completed", none, ""⟩,
          submitRun := fun _ => ⟨"run1", "th1", "queued", none, ""⟩,
          timedOut := fun _ => false, messages := [] }
        (fun name => if name = "lookup" then some (fun _ => .error "boom") else none)
        3 ⟨"run1", "th1", "queued", none, ""⟩ {} =
      (some ⟨"run1", "th1", "completed", none, ""⟩,
        { retrieves := 3, checks := 0, submits := 1,
          actions := [ExtAction.submitToolOutputs "th1" "run1"
            ([⟨"call1", "lookup", "args"⟩].map fun c =>
              (c.id, jsonDumps (dispatchToolCall
                (fun name => if name = "lookup" then some (fun _ => .error "boom") else none)
                c)))] })) ∧
    dispatchToolCall
      (fun name => if name = "lookup" then some (fun _ => .error "boom") else none)
      ⟨"call1", "lookup", "args"⟩ = "[Erreur: " ++ "boom" ++ "]" := by
  refine ⟨(claim_C7_callback_errors_encoded
    (fun name => if name = "lookup" then some (fun _ => .error "boom") else none)
    [⟨"call1", "lookup", "args"⟩] "run1" "th1" "run1" "th1" ""
    ⟨"run1", "th1", "queued", none, ""⟩ ⟨"run1", "th1", "queued", none, ""⟩ []).1, ?_⟩
  exact (claim_C7_callback_errors_encoded
    (fun name => if name = "lookup" then some (fun _ => .error "boom") else none)
    [⟨"call1", "lookup", "args"⟩] "run1" "th1" "run1" "th1" ""
    ⟨"run1", "th1", "queued", none, ""⟩ ⟨"run1", "th1", "queued", none, ""⟩ []).2.1
    ⟨"call1", "lookup", "args"⟩ (by simp) (fun _ => .error "boom") "boom" (by simp) rfl

/-! ## Claim C3: session teardown -/

/-- The polling loop itself never issues a `threads.delete` request: the
only cancel/submit requests it adds are not teardowns. -/
theorem waitOnRun_no_teardown (env : ExtEnv) (handlers : HandlerRegistry) :
    ∀ (fuel : Nat) (r : RunState) (t : ExtTrace),
      countTeardowns (waitOnRun env handlers fuel r t).2.actions =
        countTeardowns t.actions := by
  intro fuel
  induction fuel with
  | zero => intro r t; rfl
  | succ n ih =>
      intro r t
      rw [waitOnRun]
      by_cases h1 : isTerminalStatus (env.runs t.retrieves).status = true
      · rw [if_pos h1]
      · rw [if_neg h1]
        by_cases h2 : (env.runs t.retrieves).status = "requires_action"
        · rw [if_pos h2]
          cases hra : (env.runs t.retrieves).required_action with
          | none => exact ih _ _
          | some calls =>
              dsimp only
              split
              · rename_i t3 heq
                have h4 := congrArg (fun p => countTeardowns p.2.actions) heq
                dsimp only at h4
                rw [ih] at h4
                dsimp only
                rw [← h4]
                simp [countTeardowns, List.filter_append, isDeleteThread]
              · rename_i run2 t3 heq
                rw [ih]
                have h4 := congrArg (fun p => countTeardowns p.2.actions) heq
                dsimp only at h4
                rw [ih] at h4
                rw [← h4]
                simp [countTeardowns, List.filter_append, isDeleteThread]
        · rw [if_neg h2]
          by_cases h3 : env.timedOut ({ t with retrieves := t.retrieves + 1 } :
              ExtTrace).checks = true
          · rw [if_pos h3]
            simp [countTeardowns, List.filter_append, isDeleteThread]
          · rw [if_neg h3]
            rw [ih]

/-- **C3 counterexample.** A task that reaches the terminal state
`failed` raises through `_query_assistant` without ever issuing a
`threads.delete` request: the session is torn down zero times, not
exactly once, so teardown is not performed "regardless of outcome". -/
theorem claim_C3_counterexample_no_teardown_on_failure :
    queryAssistant
      { runs := fun _ => ⟨"run1", "th1", "failed", none, "boom"⟩,
        submitRun := fun _ => ⟨"run1", "th1", "queued", none, ""⟩,
        timedOut := fun _ => false, messages := [] }
      (fun _ => none) 1 ⟨"run1", "th1", "queued", none, ""⟩ =
      some (.error "Le Run a échoué : boom", ⟨1, 0, 0, []⟩) ∧
    countTeardowns (⟨1, 0, 0, []⟩ : ExtTrace).actions = 0 ∧
    ¬ countTeardowns (⟨1, 0, 0, []⟩ : ExtTrace).actions = 1 :=
  ⟨rfl, rfl, by decide⟩

/-- **C3 (amended).** The session is torn down exactly once when the
invocation returns a successful response (terminal status `completed`
with a non-empty payload); on every raising outcome — `failed`,
`cancelled`, `expired`, an unexpected status, or an empty payload on
`completed` — the thread is never deleted. -/
theorem claim_C3_amended_teardown_only_on_success (env : ExtEnv)
    (handlers : HandlerRegistry) (fuel : Nat) (r0 : RunState) :
    (∀ v t, queryAssistant env handlers fuel r0 = some (.ok v, t) →
      countTeardowns t.actions = 1) ∧
    (∀ e t, queryAssistant env handlers fuel r0 = some (.error e, t) →
      countTeardowns t.actions = 0) := by
  have hwait := waitOnRun_no_teardown env handlers fuel r0 {}
  constructor
  · intro v t heq
    rw [queryAssistant] at heq
    cases hw : waitOnRun env handlers fuel r0 {} with
    | mk ores tr =>
        rw [hw] at heq hwait
        cases ores with
        | none => simp at heq
        | some run =>
            dsimp only at heq
            cases hg : getAssistantResponse env.messages run with
            | error e => rw [hg] at heq; simp at heq
            | ok v2 =>
                rw [hg] at heq
                simp only [Option.some.injEq, Prod.mk.injEq] at heq
                rw [← heq.2]
                simp only [countTeardowns, List.filter_append] at hwait ⊢
                simp [hwait, isDeleteThread, countTeardowns]
  · intro e t heq
    rw [queryAssistant] at heq
    cases hw : waitOnRun env handlers fuel r0 {} with
    | mk ores tr =>
        rw [hw] at heq hwait
        cases ores with
        | none => simp at heq
        | some run =>
            dsimp only at heq
            cases hg : getAssistantResponse env.messages run with
            | ok v => rw [hg] at heq; simp at heq
            | error e2 =>
                rw [hg] at heq
                simp only [Option.some.injEq, Prod.mk.injEq] at heq
                rw [← heq.2]
                exact hwait

/-- **C3 (amended) witness.** A completed run with payload tears the
thread down once; a failed run tears it down zero times. -/
theorem claim_C3_amended_teardown_only_on_success_witness :
    countTeardowns (⟨1, 0, 0, [ExtAction.deleteThread "th1"]⟩ : ExtTrace).actions = 1 ∧
    countTeardowns (⟨1, 0, 0, []⟩ : ExtTrace).actions = 0 :=
  ⟨(claim_C3_amended_teardown_only_on_success
      { runs := fun _ => ⟨"run1", "th1", "completed", none, ""⟩,
        submitRun := fun _ => ⟨"run1", "th1", "queued", none, ""⟩,
        timedOut := fun _ => false, messages := [⟨["hello"]⟩] }
      (fun _ => none) 1 ⟨"run1", "th1", "queued", none, ""⟩).1 "hello" _ rfl,
   (claim_C3_amended_teardown_only_on_success
      { runs := fun _ => ⟨"run1", "th1", "failed", none, "boom"⟩,
        submitRun := fun _ => ⟨"run1", "th1", "queued", none, ""⟩,
        timedOut := fun _ => false, messages := [] }
      (fun _ => none) 1 ⟨"run1", "th1", "queued", none, ""⟩).2
    "Le Run a échoué : boom" _ rfl⟩

/-! ## Claim C6: timeout and cancellation -/

/-- **C6 counterexample.** An invocation whose first elapsed-time check
exceeds the timeout while the run is still `queued` issues the cancel
request — and then returns a success: the post-cancel re-fetch reports
`completed` (the run finished before the cancel took effect), the
response is extracted and the thread deleted, so the overall call is a
success labelled `completed`, not a task error. -/
theorem claim_C6_counterexample_success_after_cancel :
    queryAssistant
      { runs := fun n => if n = 0 then ⟨"run1", "th1", "queued", none, ""⟩
          else ⟨"run1", "th1", "completed", none, ""⟩,
        submitRun := fun _ => ⟨"run1", "th1", "queued", none, ""⟩,
        timedOut := fun _ => true, messages := [⟨["resp"]⟩] }
      (fun _ => none) 1 ⟨"run1", "th1", "queued", none, ""⟩ =
      some (.ok "resp",
        ⟨2, 1, 0, [ExtAction.cancelRun "th1" "run1", ExtAction.deleteThread "th1"]⟩) :=
  rfl

/-- **C6 (amended).** When the elapsed time exceeds the timeout while
the run is not terminal (and not awaiting callbacks), the runner issues
exactly one cancel request and returns the re-fetched final run; if that
final status is anything other than `completed` the overall call raises
(never a success) — but if the cancel raced with completion and the
re-fetch reports `completed` with a non-empty payload, the call returns
a success. -/
theorem claim_C6_amended_timeout_cancel (env : ExtEnv) (handlers : HandlerRegistry)
    (fuel : Nat) (r0 : RunState)
    (h1 : isTerminalStatus (env.runs 0).status = false)
    (h2 : (env.runs 0).status ≠ "requires_action")
    (h3 : env.timedOut 0 = true) :
    waitOnRun env handlers (fuel + 1) r0 {} =
      (some (env.runs 1),
        ⟨2, 1, 0, [ExtAction.cancelRun (env.runs 0).thread_id (env.runs 0).id]⟩) ∧
    ((env.runs 1).status ≠ "completed" →
      ∀ v t, ¬ queryAssistant env handlers (fuel + 1) r0 = some (.ok v, t)) := by
  have hmain : waitOnRun env handlers (fuel + 1) r0 {} =
      (some (env.runs 1),
        ⟨2, 1, 0, [ExtAction.cancelRun (env.runs 0).thread_id (env.runs 0).id]⟩) := by
    rw [waitOnRun]
    simp [h1, h2, h3]
  refine ⟨hmain, ?_⟩
  intro hnc v t heq
  rw [queryAssistant, hmain] at heq
  dsimp only at heq
  cases hg : getAssistantResponse env.messages (env.runs 1) with
  | error e => rw [hg] at heq; simp at heq
  | ok v2 =>
      exact absurd (getAssistantResponse_ok_completed env.messages (env.runs 1) v2 hg).1 hnc

/-- **C6 (amended) witness.** Timeout while `queued`, post-cancel
re-fetch `expired`: the cancel request is issued and no success value
can be returned. -/
theorem claim_C6_amended_timeout_cancel_witness :
    waitOnRun
      { runs := fun n => if n = 0 then ⟨"run1", "th1", "queued", none, ""⟩
          else ⟨"run1", "th1", "expired", none, ""⟩,
        submitRun := fun _ => ⟨"run1", "th1", "queued", none, ""⟩,
        timedOut := fun _ => true, messages := [] }
      (fun _ => none) (0 + 1) ⟨"run1", "th1", "queued", none, ""⟩ {} =
      (some ⟨"run1", "th1", "expired", none, ""⟩,
        ⟨2, 1, 0, [ExtAction.cancelRun "th1" "run1"]⟩) ∧
    ¬ queryAssistant
        { runs := fun n => if n = 0 then ⟨"run1", "th1", "queued", none, ""⟩
            else ⟨"run1", "th1", "expired", none, ""⟩,
          submitRun := fun _ => ⟨"run1", "th1", "queued", none, ""⟩,
          timedOut := fun _ => true, messages := [] }
        (fun _ => none) (0 + 1) ⟨"run1", "th1", "queued", none, ""⟩ =
      some (.ok "resp", ⟨2, 1, 0, [ExtAction.cancelRun "th1" "run1"]⟩) :=
  ⟨(claim_C6_amended_timeout_cancel
      { runs := fun n => if n = 0 then ⟨"run1", "th1", "queued", none, ""⟩
          else ⟨"run1", "th1", "expired", none, ""⟩,
        submitRun := fun _ => ⟨"run1", "th1", "queued", none, ""⟩,
        timedOut := fun _ => true, messages := [] }
      (fun _ => none) 0 ⟨"run1", "th1", "queued", none, ""⟩
      rfl (by decide) rfl).1,
   (claim_C6_amended_timeout_cancel
      { runs := fun n => if n = 0 then ⟨"run1", "th1", "queued", none, ""⟩
          else ⟨"run1", "th1", "expired", none, ""⟩,
        submitRun := fun _ => ⟨"run1", "th1", "queued", none, ""⟩,
        timedOut := fun _ => true, messages := [] }
      (fun _ => none) 0 ⟨"run1", "th1", "queued", none, ""⟩
      rfl (by decide) rfl).2 (by decide) "resp" ⟨2, 1, 0, [ExtAction.cancelRun "th1" "run1"]⟩⟩

/-! ## Claim C10 -/

/-- **C10.** `process_halakha_from_json` can never return its success
dictionary: whenever the halakha loads, the call to
`process_halakha_complete` passes the keyword `save_to_supabase`, which
is not among that method's parameters, so the call raises `TypeError`
and the handler wraps it into the raised `RuntimeError`; and for every
loader outcome the function raises a wrapped error. -/
theorem claim_C10_single_json_always_raises :
    (∀ (content : String) (impl : Except String String) (i s : Nat),
      processHalakhaFromJsonSingle (.ok content) impl i s =
        .error ("Échec du traitement de la halakha #" ++ toString i ++ ": " ++
          ("process_halakha_complete() got an unexpected keyword argument " ++
            "\x27" ++ "save_to_supabase" ++ "\x27"))) ∧
    (∀ (loadResult impl : Except String String) (i s : Nat),
      ∃ e, processHalakhaFromJsonSingle loadResult impl i s = .error e) := by
  have hcall : ∀ impl : Except String String,
      callWithKwargs "process_halakha_complete" processHalakhaCompleteParams
        processHalakhaFromJsonKwargs impl =
      .error ("process_halakha_complete() got an unexpected keyword argument " ++
        "\x27" ++ "save_to_supabase" ++ "\x27") := by
    intro impl
    rfl
  constructor
  · intro content impl i s
    rw [processHalakhaFromJsonSingle]
    dsimp only
    rw [hcall]
  · intro loadResult impl i s
    cases loadResult with
    | error e => exact ⟨_, rfl⟩
    | ok content =>
        exact ⟨"Échec du traitement de la halakha #" ++ toString i ++ ": " ++
          ("process_halakha_complete() got an unexpected keyword argument " ++
            "\x27" ++ "save_to_supabase" ++ "\x27"), by
          rw [processHalakhaFromJsonSingle]
          dsimp only
          rw [hcall]⟩
